import Mathlib

/-!
Verification of the connection-pool core of `antipool.py` (class
`ConnectionPool` and the connection-wrapper classes), via a shallow
embedding.

Modelling conventions:
* Raw DBAPI connection handles are identified by natural numbers; the
  factory (`dbapi.connect`) hands out sequential ids, so the field
  `nextId` of the pool state equals the number of handles ever created.
* Timestamps (`datetime.now()` values) are integers; `timedelta`
  subtraction is integer subtraction.
* Python exceptions become explicit error results (`PyError`).  The
  `finally` blocks of the source always release the locks, so an error
  result carries the pool state as it is left when the exception
  propagates.
* Blocking on the pool condition variable (`self._pool_lock.wait()`)
  is modelled by the distinguished result `AcquireResult.blocked`: in a
  sequential embedding a blocked acquire does not change the state.
* `dbapi.connect` failures are modelled by a boolean `connectFails`
  parameter on the operations that may create a connection.
-/

namespace Antipool

/-- Python-level failures raised by the pool code: `antipool.Error`
with its message, `assert` failures, the `NameError` raised by reading
an unbound name, and a failure of `dbapi.connect`. -/
inductive PyError where
  | err (msg : String)
  | assertionError
  | nameError
  | connectError
deriving DecidableEq, Repr

/-- The mutable state of a `ConnectionPool` object (fields `_pool`,
`_nbconn`, `_roconn`, `_roconn_refs`, `_ro_shared`, `_maxconn`,
`_minconn`, `_minkeepsecs`), plus the factory counter `nextId` used to
allocate fresh handle ids (it equals the number of handles ever
created by `_create_connection`). -/
structure PoolState where
  pool : List (Nat × Int)
  nbconn : Int
  roconn : Option Nat
  roconnRefs : Int
  roShared : Bool
  maxconn : Option Int
  minconn : Int
  minkeepsecs : Int
  nextId : Nat
deriving DecidableEq, Repr

/-- `ConnectionPool.__init__` (lines 187-259 of antipool.py), restricted
to the fields the pool logic reads.  `threadsafety` is
`dbapi.threadsafety` and `disable_ro` is the `disable_ro` option.
Line 223 computes `_ro_shared`; when it is false, line 229 evaluates the
name `disable_ro`, which is never bound in the function body (the
option was consumed by `options.pop` inside the line-223 expression),
so Python raises `NameError` there.  Lines 238-243 then apply the
`maxconn` option: when `_ro_shared` is false the ceiling is decremented
by one, and `assert self._maxconn > 0` must hold. -/
def initPool (threadsafety : Int) (disable_ro : Bool)
    (minconn : Int) (maxconn : Option Int) (minkeepsecs : Int) :
    Except PyError PoolState :=
  let ro_shared : Bool := !disable_ro && decide (2 ≤ threadsafety)
  if !ro_shared then
    .error .nameError
  else
    let maxconn' : Option Int :=
      match maxconn with
      | none => none
      | some m => some (if !ro_shared then m - 1 else m)
    let maxconnOk : Bool :=
      match maxconn' with
      | none => true
      | some m => decide (0 < m)
    if !maxconnOk then .error .assertionError
    else .ok { pool := [], nbconn := 0, roconn := none, roconnRefs := 0,
               roShared := ro_shared, maxconn := maxconn',
               minconn := minconn, minkeepsecs := minkeepsecs, nextId := 0 }

/-- Result of `ConnectionPool._acquire` (and of `_get_connection_ro`):
either a raw handle together with the updated pool state, a block on
the pool condition variable, or a propagated exception (the state is
the one left behind after the `finally` released the lock). -/
inductive AcquireResult where
  | ok (conn : Nat) (s : PoolState)
  | blocked
  | error (e : PyError) (s : PoolState)
deriving DecidableEq, Repr

/-- The line-377 sanity check of `_acquire`: `self._nbconn <
self._maxconn` must hold before a new connection is created, but only
when `_maxconn` is set. -/
def canCreate (s : PoolState) : Bool :=
  match s.maxconn with
  | none => true
  | some m => decide (s.nbconn < m)

/-- Lines 371-381 of `_acquire`: pop the last element of `_pool` if the
pool is non-empty (`self._pool.pop()`); otherwise check the inner
sanity assertion `self._nbconn < self._maxconn` (line 377, only when
`_maxconn` is set), then call `_create_connection` — which may raise —
and increment `_nbconn`. -/
def acquireBody (s : PoolState) (connectFails : Bool) : AcquireResult :=
  match s.pool.getLast? with
  | some cl => .ok cl.1 { s with pool := s.pool.dropLast }
  | none =>
    if canCreate s = false then .error .assertionError s
    else if connectFails then .error .connectError s
    else .ok s.nextId { s with nbconn := s.nbconn + 1, nextId := s.nextId + 1 }

/-- `ConnectionPool._acquire` (lines 342-386).  When `_maxconn` is set:
the entry assertion `self._nbconn <= self._maxconn` (line 356), then
the wait loop `while not self._pool and self._nbconn == self._maxconn`
(line 358; modelled as `blocked`), then the sanity assertion
`self._pool or self._nbconn < self._maxconn` (line 369), and finally
the body shared with the unbounded case. -/
def acquire (s : PoolState) (connectFails : Bool) : AcquireResult :=
  match s.maxconn with
  | none => acquireBody s connectFails
  | some m =>
    if ¬ s.nbconn ≤ m then .error .assertionError s
    else if s.pool = [] ∧ s.nbconn = m then .blocked
    else if ¬ (s.pool ≠ [] ∨ s.nbconn < m) then .error .assertionError s
    else acquireBody s connectFails

/-- One step of the loop of `ConnectionPool._scaledown` (lines
469-479): walk the pool in order; an item is closed (dropped, counted)
when the remaining excess `n` is positive and its `last_released`
timestamp is older than the keep-alive limit, and kept otherwise.
Returns the filtered pool and the number of closed connections. -/
def scaleWalk (limit : Int) : Int → List (Nat × Int) → List (Nat × Int) × Int
  | _, [] => ([], 0)
  | n, item :: rest =>
    if 0 < n ∧ item.2 < limit then
      ((scaleWalk limit (n - 1) rest).1, (scaleWalk limit (n - 1) rest).2 + 1)
    else
      (item :: (scaleWalk limit n rest).1, (scaleWalk limit n rest).2)

/-- `ConnectionPool._scaledown` (lines 452-481): with
`limit = now - minkeepsecs` and excess `n = len(_pool) - _minconn`, if
`n > 0` close up to `n` idle connections older than the limit,
decrementing `_nbconn` once per closed connection. -/
def scaledown (s : PoolState) (now : Int) : PoolState :=
  if 0 < (s.pool.length : Int) - s.minconn then
    { s with
      pool := (scaleWalk (now - s.minkeepsecs)
                ((s.pool.length : Int) - s.minconn) s.pool).1,
      nbconn := s.nbconn -
        (scaleWalk (now - s.minkeepsecs)
          ((s.pool.length : Int) - s.minconn) s.pool).2 }
  else s

/-- Python 2 comparison `n < v` where `v` is `_maxconn` and may be
`None`: in Python 2 every integer compares greater than `None`, so
`n < None` is `False`. -/
def pyLtOpt (n : Int) : Option Int → Bool
  | none => false
  | some m => decide (n < m)

/-- Result of a state-mutating pool operation that may raise: the error
case carries the state left behind after the `finally` block. -/
inductive RelResult where
  | ok (s : PoolState)
  | error (e : PyError) (s : PoolState)
deriving DecidableEq, Repr

/-- The state reached inside `ConnectionPool._release` after the append
`self._pool.append((conn, datetime.now()))` (line 438, timestamp
`trel`) and the `self._scaledown()` call (line 439, whose own
`datetime.now()` is `tsd`). -/
def releaseScan (s : PoolState) (conn : Nat) (trel tsd : Int) : PoolState :=
  scaledown { s with pool := s.pool ++ [(conn, trel)] } tsd

/-- `ConnectionPool._release` (lines 429-450): assert the released
handle is not the read-only singleton (line 437), append it to `_pool`,
run `_scaledown`, then assert `self._pool or self._nbconn <
self._maxconn` (line 440; Python 2 semantics when `_maxconn` is
`None`), and notify one waiter (no state effect in this model). -/
def release (s : PoolState) (conn : Nat) (trel tsd : Int) : RelResult :=
  if s.roconn = some conn then .error .assertionError s
  else if (releaseScan s conn trel tsd).pool = [] ∧
      pyLtOpt (releaseScan s conn trel tsd).nbconn
        (releaseScan s conn trel tsd).maxconn = false then
    .error .assertionError (releaseScan s conn trel tsd)
  else .ok (releaseScan s conn trel tsd)

/-- `ConnectionPool._release_ro` (lines 413-427): assert the read-only
singleton exists and is the released handle, then decrement
`_roconn_refs`. -/
def release_ro (s : PoolState) (conn : Nat) : RelResult :=
  match s.roconn with
  | none => .error .assertionError s
  | some rc =>
    if rc = conn then .ok { s with roconnRefs := s.roconnRefs - 1 }
    else .error .assertionError s

/-- `ConnectionPool._get_connection_ro` (lines 321-333): under the RO
lock, lazily create the shared read-only connection, then increment
`_roconn_refs` and return the handle.  If creation fails the exception
propagates and neither `_roconn` nor `_roconn_refs` changes. -/
def get_connection_ro (s : PoolState) (connectFails : Bool) : AcquireResult :=
  match s.roconn with
  | some rc => .ok rc { s with roconnRefs := s.roconnRefs + 1 }
  | none =>
    if connectFails then .error .connectError s
    else .ok s.nextId
      { s with roconn := some s.nextId, roconnRefs := s.roconnRefs + 1,
               nextId := s.nextId + 1 }

/-- `ConnectionPool._getstats` (lines 533-553): returns
`(pool_size, total_conn)` where `total_conn` starts at `1` if the
read-only singleton exists and `0` otherwise, and then has `pool_size`
added to it. -/
def getstats (s : PoolState) : Nat × Nat :=
  ((s.pool.length),
   (if s.roconn.isSome then 1 else 0) + s.pool.length)

/-- `ConnectionPool.finalize` (lines 487-524): if both `_pool` and
`_roconn` are empty, assert `_nbconn == 0` and return (already
finalized); otherwise assert `len(_pool) == _nbconn` and
`_roconn_refs == 0`, close the read-only singleton and every idle
connection, and reset `_pool = []`, `_roconn = None`, `_nbconn = 0`. -/
def finalizePool (s : PoolState) : RelResult :=
  if s.pool = [] ∧ s.roconn = none then
    if s.nbconn = 0 then .ok s else .error .assertionError s
  else if ¬ ((s.pool.length : Int) = s.nbconn) then .error .assertionError s
  else if ¬ (s.roconnRefs = 0) then .error .assertionError s
  else .ok { s with pool := [], roconn := none, nbconn := 0 }

/-- Capability of a connection wrapper: which of the three classes
`ConnectionWrapperRO`, `ConnectionWrapperCrippled`, `ConnectionWrapper`
it belongs to. -/
inductive Cap where
  | ro
  | crippled
  | rw
deriving DecidableEq, Repr

/-- State of a connection wrapper object: the `_conn` field (cleared to
`None` by `release()`) and its class. -/
structure Wrapper where
  conn : Option Nat
  cap : Cap
deriving DecidableEq, Repr

/-- Message of the `antipool.Error` raised by `_getconn` on a released
wrapper (line 592). -/
def useAfterReleaseMsg : String := "Error: Connection already closed."

/-- Message of the `antipool.Error` raised by
`ConnectionWrapperRO.commit` (line 607). -/
def readOnlyCommitMsg : String := "Error: You cannot commit on a read-only connection."

/-- `ConnectionWrapperRO._getconn` (lines 590-594): raise if `_conn`
is `None`, return it otherwise. -/
def Wrapper.getconn (w : Wrapper) : Except PyError Nat :=
  match w.conn with
  | none => .error (.err useAfterReleaseMsg)
  | some c => .ok c

/-- `ConnectionWrapperRO.cursor` (line 603): delegate to the raw
handle; the result names the handle on which `cursor()` is invoked. -/
def Wrapper.cursor (w : Wrapper) : Except PyError Nat :=
  w.getconn

/-- `ConnectionWrapperRO.rollback` (line 609): delegate to the raw
handle. -/
def Wrapper.rollback (w : Wrapper) : Except PyError Nat :=
  w.getconn

/-- `commit`: `ConnectionWrapperRO.commit` (line 606) raises
unconditionally — it does not consult `_conn` — and
`ConnectionWrapperCrippled` inherits it; `ConnectionWrapper.commit`
(line 626) delegates to the raw handle through `_getconn`. -/
def Wrapper.commit (w : Wrapper) : Except PyError Nat :=
  match w.cap with
  | .rw => w.getconn
  | _ => .error (.err readOnlyCommitMsg)

/-- `_release_impl`: `ConnectionWrapperRO` releases to the shared
read-only slot (line 600), `ConnectionWrapperCrippled` (inherited by
`ConnectionWrapper`) releases to the read-write pool (line 618). -/
def Wrapper.release_impl (cap : Cap) (s : PoolState) (c : Nat)
    (trel tsd : Int) : RelResult :=
  match cap with
  | .ro => release_ro s c
  | .crippled => release s c trel tsd
  | .rw => release s c trel tsd

/-- Result of `ConnectionWrapperRO.release` / `__del__`: the updated
wrapper and pool state, or a propagated exception with the states left
behind. -/
inductive WRelResult where
  | ok (w : Wrapper) (s : PoolState)
  | error (e : PyError) (w : Wrapper) (s : PoolState)
deriving DecidableEq, Repr

/-- `ConnectionWrapperRO.release` (lines 596-598): call
`_release_impl(self._getconn())`, then clear `_conn` (and `_connpool`).
If `_getconn` or `_release_impl` raises, `_conn` is not cleared. -/
def Wrapper.release (w : Wrapper) (s : PoolState) (trel tsd : Int) :
    WRelResult :=
  match w.getconn with
  | .error e => .error e w s
  | .ok c =>
    match Wrapper.release_impl w.cap s c trel tsd with
    | .error e s1 => .error e w s1
    | .ok s1 => .ok { w with conn := none } s1

/-- `ConnectionWrapperRO.__del__` (lines 583-588): if `_conn` is still
set, invoke the `debug_unreleased` hook (when configured) and then
`release()`; otherwise do nothing.  The first component records whether
the hook was invoked. -/
def Wrapper.del (w : Wrapper) (hookSet : Bool) (s : PoolState)
    (trel tsd : Int) : Bool × WRelResult :=
  match w.conn with
  | none => (false, .ok w s)
  | some _ => (hookSet, w.release s trel tsd)

/-- A pool configuration for trace reasoning: the pool state plus the
list of raw handles currently checked out of the read-write pool
(held by client wrappers). -/
structure Config where
  ps : PoolState
  out : List Nat
deriving DecidableEq, Repr

/-- Client-visible pool operations for trace reasoning: read-write
acquire (`_acquire`), read-write release of a checked-out handle
(`_release`), shared read-only acquire (`_get_connection_ro`), and
read-only release (`_release_ro`). -/
inductive Op where
  | acq (connectFails : Bool)
  | rel (conn : Nat) (trel tsd : Int)
  | acqRo (connectFails : Bool)
  | relRo (conn : Nat)
deriving DecidableEq, Repr

/-- Run one operation on a configuration.  A blocked acquire leaves the
configuration unchanged (the waiting thread has not progressed).  A
`rel` of a handle that is not checked out is a caller contract
violation and is not performed (the spec calls it a programming error
of the caller); a well-formed trace only releases checked-out
handles. -/
def runOp (cfg : Config) : Op → Config
  | .acq f =>
    match acquire cfg.ps f with
    | .ok c s1 => ⟨s1, c :: cfg.out⟩
    | .blocked => cfg
    | .error _ s1 => ⟨s1, cfg.out⟩
  | .rel c trel tsd =>
    if c ∈ cfg.out then
      match release cfg.ps c trel tsd with
      | .ok s1 => ⟨s1, cfg.out.erase c⟩
      | .error _ s1 => ⟨s1, cfg.out⟩
    else cfg
  | .acqRo f =>
    match get_connection_ro cfg.ps f with
    | .ok _ s1 => ⟨s1, cfg.out⟩
    | .blocked => cfg
    | .error _ s1 => ⟨s1, cfg.out⟩
  | .relRo c =>
    match release_ro cfg.ps c with
    | .ok s1 => ⟨s1, cfg.out⟩
    | .error _ s1 => ⟨s1, cfg.out⟩

/-- Run a list of operations, in order. -/
def runOps (cfg : Config) (ops : List Op) : Config :=
  ops.foldl runOp cfg

/-! ### Structural lemmas about the pool operations -/

lemma canCreate_true_iff (s : PoolState) :
    canCreate s = true ↔ ∀ m, s.maxconn = some m → s.nbconn < m := by
  unfold canCreate
  cases hm : s.maxconn with
  | none => simp
  | some m => simp

/-- Case analysis for the outcome of `_acquire`'s body: either a pop of
the last idle entry, a fresh creation (possible only strictly below the
ceiling), or an exception that leaves the state unchanged. -/
inductive AcqShape (s : PoolState) : AcquireResult → Prop where
  | pop (c : Nat) : s.pool ≠ [] →
      AcqShape s (.ok c { s with pool := s.pool.dropLast })
  | create : s.pool = [] → (∀ m, s.maxconn = some m → s.nbconn < m) →
      AcqShape s (.ok s.nextId
        { s with nbconn := s.nbconn + 1, nextId := s.nextId + 1 })
  | blocked : AcqShape s .blocked
  | error (e : PyError) : AcqShape s (.error e s)

lemma acquireBody_shape (s : PoolState) (f : Bool) :
    AcqShape s (acquireBody s f) := by
  unfold acquireBody
  cases hl : s.pool.getLast? with
  | some cl =>
    refine AcqShape.pop cl.1 ?_
    intro hnil
    rw [hnil] at hl
    simp at hl
  | none =>
    have hnil : s.pool = [] := by
      cases hp : s.pool with
      | nil => rfl
      | cons a l =>
        rw [hp] at hl
        simp [List.getLast?_concat, List.getLast?] at hl
    by_cases hc : canCreate s = false
    · rw [if_pos hc]
      exact AcqShape.error _
    · rw [if_neg hc]
      by_cases hf : f = true
      · rw [hf, if_pos rfl]
        exact AcqShape.error _
      · rw [if_neg (by simpa using hf)]
        refine AcqShape.create hnil ?_
        exact (canCreate_true_iff s).1 (by simpa using hc)

lemma acquire_shape (s : PoolState) (f : Bool) :
    AcqShape s (acquire s f) := by
  unfold acquire
  cases hm : s.maxconn with
  | none => exact acquireBody_shape s f
  | some m =>
    show AcqShape s
      (if ¬ s.nbconn ≤ m then .error .assertionError s
       else if s.pool = [] ∧ s.nbconn = m then .blocked
       else if ¬ (s.pool ≠ [] ∨ s.nbconn < m) then .error .assertionError s
       else acquireBody s f)
    by_cases h1 : ¬ s.nbconn ≤ m
    · rw [if_pos h1]; exact AcqShape.error _
    · rw [if_neg h1]
      by_cases h2 : s.pool = [] ∧ s.nbconn = m
      · rw [if_pos h2]; exact AcqShape.blocked
      · rw [if_neg h2]
        by_cases h3 : ¬ (s.pool ≠ [] ∨ s.nbconn < m)
        · rw [if_pos h3]; exact AcqShape.error _
        · rw [if_neg h3]; exact acquireBody_shape s f

/-- When the ceiling is reached with an empty idle pool, `_acquire`
blocks on the condition variable. -/
lemma acquire_blocked_of (s : PoolState) (f : Bool) (m : Int)
    (hm : s.maxconn = some m) (hle : s.nbconn ≤ m)
    (hp : s.pool = []) (he : s.nbconn = m) :
    acquire s f = .blocked := by
  unfold acquire
  rw [hm]
  show (if ¬ s.nbconn ≤ m then AcquireResult.error .assertionError s
       else if s.pool = [] ∧ s.nbconn = m then .blocked
       else if ¬ (s.pool ≠ [] ∨ s.nbconn < m) then .error .assertionError s
       else acquireBody s f) = .blocked
  rw [if_neg (not_not_intro hle), if_pos ⟨hp, he⟩]

lemma scaleWalk_spec (limit : Int) (l : List (Nat × Int)) : ∀ n : Int,
    0 ≤ (scaleWalk limit n l).2 ∧ (scaleWalk limit n l).2 ≤ max n 0 ∧
    ((scaleWalk limit n l).1.length : Int) + (scaleWalk limit n l).2 =
      l.length := by
  induction l with
  | nil => intro n; simp [scaleWalk]
  | cons item rest ih =>
    intro n
    by_cases h : 0 < n ∧ item.2 < limit
    · obtain ⟨h1, h2, h3⟩ := ih (n - 1)
      simp only [scaleWalk, if_pos h, List.length_cons]
      refine ⟨by omega, by omega, ?_⟩
      push_cast
      omega
    · obtain ⟨h1, h2, h3⟩ := ih n
      simp only [scaleWalk, if_neg h, List.length_cons]
      refine ⟨h1, h2, ?_⟩
      push_cast
      omega

/-- `_scaledown` only touches `_pool` and `_nbconn`. -/
lemma scaledown_fields (s : PoolState) (now : Int) :
    (scaledown s now).maxconn = s.maxconn ∧
    (scaledown s now).minconn = s.minconn ∧
    (scaledown s now).roconn = s.roconn ∧
    (scaledown s now).roconnRefs = s.roconnRefs ∧
    (scaledown s now).nextId = s.nextId ∧
    (scaledown s now).roShared = s.roShared ∧
    (scaledown s now).minkeepsecs = s.minkeepsecs := by
  unfold scaledown
  split <;> simp

/-- `_scaledown` closes `k ≥ 0` connections: `_nbconn` and the idle
count both drop by `k`, and the idle count never drops below the
`_minconn` floor (or below its starting value, if that was already
under the floor). -/
lemma scaledown_counts (s : PoolState) (now : Int) :
    ∃ k : Int, 0 ≤ k ∧ (scaledown s now).nbconn = s.nbconn - k ∧
      ((scaledown s now).pool.length : Int) = (s.pool.length : Int) - k ∧
      min s.minconn (s.pool.length : Int) ≤
        ((scaledown s now).pool.length : Int) := by
  unfold scaledown
  by_cases h : 0 < (s.pool.length : Int) - s.minconn
  · obtain ⟨h1, h2, h3⟩ := scaleWalk_spec (now - s.minkeepsecs) s.pool
      ((s.pool.length : Int) - s.minconn)
    rw [if_pos h]
    exact ⟨_, h1, by simp, by simp; omega, by simp; omega⟩
  · rw [if_neg h]
    exact ⟨0, le_refl 0, by omega, by omega, by omega⟩

/-- The state built inside `_release` (append then scale down):
`_nbconn` and the idle count both drop by the `k ≥ 0` connections the
scale-down pass closed, relative to the appended pool; the idle count
keeps the `_minconn` floor. -/
lemma releaseScan_spec (s : PoolState) (conn : Nat) (trel tsd : Int) :
    ∃ k : Int, 0 ≤ k ∧
      (releaseScan s conn trel tsd).nbconn = s.nbconn - k ∧
      ((releaseScan s conn trel tsd).pool.length : Int) =
        (s.pool.length : Int) + 1 - k ∧
      min s.minconn ((s.pool.length : Int) + 1) ≤
        ((releaseScan s conn trel tsd).pool.length : Int) := by
  unfold releaseScan
  obtain ⟨k, h1, h2, h3, h4⟩ :=
    scaledown_counts { s with pool := s.pool ++ [(conn, trel)] } tsd
  simp only [List.length_append, List.length_cons, List.length_nil] at h3 h4
  exact ⟨k, h1, h2, by push_cast at h3 ⊢; omega, by push_cast at h4 ⊢; omega⟩

lemma releaseScan_fields (s : PoolState) (conn : Nat) (trel tsd : Int) :
    (releaseScan s conn trel tsd).maxconn = s.maxconn ∧
    (releaseScan s conn trel tsd).minconn = s.minconn ∧
    (releaseScan s conn trel tsd).roconn = s.roconn ∧
    (releaseScan s conn trel tsd).roconnRefs = s.roconnRefs ∧
    (releaseScan s conn trel tsd).nextId = s.nextId ∧
    (releaseScan s conn trel tsd).roShared = s.roShared := by
  unfold releaseScan
  obtain ⟨f1, f2, f3, f4, f5, f6, f7⟩ :=
    scaledown_fields { s with pool := s.pool ++ [(conn, trel)] } tsd
  exact ⟨f1, f2, f3, f4, f5, f6⟩

/-- Case analysis for `_release`: either the roconn assertion fires
(state unchanged), or the post-scale-down assertion fires (state
already mutated when the exception propagates), or the release
completes with the appended-and-scaled state. -/
inductive RelShape (s : PoolState) (conn : Nat) (trel tsd : Int) :
    RelResult → Prop where
  | roAssert : s.roconn = some conn →
      RelShape s conn trel tsd (.error .assertionError s)
  | emptyAssert : s.roconn ≠ some conn →
      RelShape s conn trel tsd
        (.error .assertionError (releaseScan s conn trel tsd))
  | ok : s.roconn ≠ some conn →
      RelShape s conn trel tsd (.ok (releaseScan s conn trel tsd))

lemma release_shape (s : PoolState) (conn : Nat) (trel tsd : Int) :
    RelShape s conn trel tsd (release s conn trel tsd) := by
  unfold release
  by_cases h1 : s.roconn = some conn
  · rw [if_pos h1]; exact RelShape.roAssert h1
  · rw [if_neg h1]
    split
    · exact RelShape.emptyAssert h1
    · exact RelShape.ok h1

/-- With `_minconn ≥ 1` the post-scale-down assertion of `_release`
can never fire: the appended pool keeps at least one entry. -/
lemma release_ok_of_one_le_minconn (s : PoolState) (conn : Nat)
    (trel tsd : Int) (hmin : 1 ≤ s.minconn) (hro : s.roconn ≠ some conn) :
    release s conn trel tsd = .ok (releaseScan s conn trel tsd) := by
  unfold release
  rw [if_neg hro]
  obtain ⟨k, h1, h2, h3, h4⟩ := releaseScan_spec s conn trel tsd
  have hne : (releaseScan s conn trel tsd).pool ≠ [] := by
    intro hnil
    rw [hnil] at h4
    simp at h4
    omega
  rw [if_neg (by intro hc; exact hne hc.1)]

/-- Case analysis for `_release_ro`: an assertion failure leaves the
state unchanged; a completed release decrements the reference count. -/
lemma release_ro_shape (s : PoolState) (conn : Nat) :
    release_ro s conn = .error .assertionError s ∨
    (s.roconn = some conn ∧
      release_ro s conn = .ok { s with roconnRefs := s.roconnRefs - 1 }) := by
  unfold release_ro
  split
  · exact Or.inl rfl
  · next rc heq =>
      by_cases hc : rc = conn
      · subst hc
        rw [if_pos rfl]
        exact Or.inr ⟨heq, rfl⟩
      · rw [if_neg hc]
        exact Or.inl rfl

/-- Case analysis for `_get_connection_ro`: reuse of the existing
singleton, lazy creation of it, or a propagated creation failure;
`_pool`, `_nbconn` and the configuration fields are never touched. -/
lemma get_connection_ro_shape (s : PoolState) (f : Bool) :
    (∃ rc, s.roconn = some rc ∧
      get_connection_ro s f = .ok rc { s with roconnRefs := s.roconnRefs + 1 }) ∨
    (s.roconn = none ∧ f = true ∧
      get_connection_ro s f = .error .connectError s) ∨
    (s.roconn = none ∧ f = false ∧
      get_connection_ro s f = .ok s.nextId
        { s with roconn := some s.nextId, roconnRefs := s.roconnRefs + 1,
                 nextId := s.nextId + 1 }) := by
  cases hf : f with
  | true =>
    unfold get_connection_ro
    split
    · next rc heq => exact Or.inl ⟨rc, heq, rfl⟩
    · next heq => exact Or.inr (Or.inl ⟨heq, rfl, by rw [if_pos rfl]⟩)
  | false =>
    unfold get_connection_ro
    split
    · next rc heq => exact Or.inl ⟨rc, heq, rfl⟩
    · next heq => exact Or.inr (Or.inr ⟨heq, rfl, by rw [if_neg (by simp)]⟩)

/-! ### Preservation of the pool configuration along traces -/

/-- No client operation changes the pool configuration constants. -/
lemma runOp_config_fields (cfg : Config) (op : Op) :
    (runOp cfg op).ps.maxconn = cfg.ps.maxconn ∧
    (runOp cfg op).ps.minconn = cfg.ps.minconn := by
  cases op with
  | acq f =>
    have hs := acquire_shape cfg.ps f
    cases hq : acquire cfg.ps f with
    | ok c s1 =>
      rw [hq] at hs
      simp only [runOp, hq]
      cases hs with
      | pop c hne => exact ⟨rfl, rfl⟩
      | create hp hlt => exact ⟨rfl, rfl⟩
    | blocked => simp [runOp, hq]
    | error e s1 =>
      rw [hq] at hs
      simp only [runOp, hq]
      cases hs with
      | error e => exact ⟨rfl, rfl⟩
  | rel c trel tsd =>
    by_cases hmem : c ∈ cfg.out
    · have hs := release_shape cfg.ps c trel tsd
      obtain ⟨f1, f2, f3, f4, f5, f6⟩ := releaseScan_fields cfg.ps c trel tsd
      cases hq : release cfg.ps c trel tsd with
      | ok s1 =>
        rw [hq] at hs
        simp only [runOp, if_pos hmem, hq]
        cases hs with
        | ok hro => exact ⟨f1, f2⟩
      | error e s1 =>
        rw [hq] at hs
        simp only [runOp, if_pos hmem, hq]
        cases hs with
        | roAssert hro => exact ⟨rfl, rfl⟩
        | emptyAssert hro => exact ⟨f1, f2⟩
    · simp [runOp, if_neg hmem]
  | acqRo f =>
    rcases get_connection_ro_shape cfg.ps f with ⟨rc, hr, hq⟩ | ⟨hr, hf, hq⟩ |
      ⟨hr, hf, hq⟩ <;> simp [runOp, hq]
  | relRo c =>
    rcases release_ro_shape cfg.ps c with hq | ⟨hr, hq⟩ <;>
      simp [runOp, hq]

lemma runOps_config_fields (ops : List Op) : ∀ cfg : Config,
    (runOps cfg ops).ps.maxconn = cfg.ps.maxconn ∧
    (runOps cfg ops).ps.minconn = cfg.ps.minconn := by
  induction ops with
  | nil => intro cfg; exact ⟨rfl, rfl⟩
  | cons op rest ih =>
    intro cfg
    obtain ⟨h1, h2⟩ := ih (runOp cfg op)
    obtain ⟨g1, g2⟩ := runOp_config_fields cfg op
    exact ⟨by rw [runOps, List.foldl_cons, ← runOps, h1, g1],
           by rw [runOps, List.foldl_cons, ← runOps, h2, g2]⟩

/-- One client operation preserves the live-count bound
`_nbconn ≤ _maxconn`. -/
lemma runOp_nbconn_le (cfg : Config) (op : Op) (m : Int)
    (hm : cfg.ps.maxconn = some m) (hb : cfg.ps.nbconn ≤ m) :
    (runOp cfg op).ps.nbconn ≤ m := by
  cases op with
  | acq f =>
    have hs := acquire_shape cfg.ps f
    cases hq : acquire cfg.ps f with
    | ok c s1 =>
      rw [hq] at hs
      simp only [runOp, hq]
      cases hs with
      | pop c hne => exact hb
      | create hp hlt =>
        have := hlt m hm
        show cfg.ps.nbconn + 1 ≤ m
        omega
    | blocked => simp only [runOp, hq]; exact hb
    | error e s1 =>
      rw [hq] at hs
      simp only [runOp, hq]
      cases hs with
      | error e => exact hb
  | rel c trel tsd =>
    by_cases hmem : c ∈ cfg.out
    · have hs := release_shape cfg.ps c trel tsd
      obtain ⟨k, hk0, hk1, hk2, hk3⟩ := releaseScan_spec cfg.ps c trel tsd
      cases hq : release cfg.ps c trel tsd with
      | ok s1 =>
        rw [hq] at hs
        simp only [runOp, if_pos hmem, hq]
        cases hs with
        | ok hro => rw [hk1]; omega
      | error e s1 =>
        rw [hq] at hs
        simp only [runOp, if_pos hmem, hq]
        cases hs with
        | roAssert hro => exact hb
        | emptyAssert hro => rw [hk1]; omega
    · simp only [runOp, if_neg hmem]
      exact hb
  | acqRo f =>
    rcases get_connection_ro_shape cfg.ps f with ⟨rc, hr, hq⟩ | ⟨hr, hf, hq⟩ |
      ⟨hr, hf, hq⟩ <;> simp only [runOp, hq] <;> exact hb
  | relRo c =>
    rcases release_ro_shape cfg.ps c with hq | ⟨hr, hq⟩ <;>
      simp only [runOp, hq] <;> exact hb

lemma runOps_nbconn_le (ops : List Op) : ∀ (cfg : Config) (m : Int),
    cfg.ps.maxconn = some m → cfg.ps.nbconn ≤ m →
    (runOps cfg ops).ps.nbconn ≤ m := by
  induction ops with
  | nil => intro cfg m hm hb; exact hb
  | cons op rest ih =>
    intro cfg m hm hb
    rw [runOps, List.foldl_cons, ← runOps]
    exact ih (runOp cfg op) m
      (by rw [(runOp_config_fields cfg op).1, hm])
      (runOp_nbconn_le cfg op m hm hb)

/-- Accounting invariant of a configuration: every live read-write
handle is either idle in the pool or checked out by a client. -/
def countInv (cfg : Config) : Prop :=
  cfg.ps.nbconn = (cfg.ps.pool.length : Int) + cfg.out.length

/-- One client operation preserves the accounting invariant, provided
`_minconn ≥ 1` (which rules out the pathological `_release` assertion
failure that can only occur when the scale-down pass may empty the
pool). -/
lemma runOp_countInv (cfg : Config) (op : Op) (hmin : 1 ≤ cfg.ps.minconn)
    (h : countInv cfg) : countInv (runOp cfg op) := by
  unfold countInv at h ⊢
  cases op with
  | acq f =>
    have hs := acquire_shape cfg.ps f
    cases hq : acquire cfg.ps f with
    | ok c s1 =>
      rw [hq] at hs
      simp only [runOp, hq]
      cases hs with
      | pop c hne =>
        have hlen := List.length_dropLast cfg.ps.pool
        have hpos : 1 ≤ cfg.ps.pool.length := List.length_pos.mpr hne
        simp only [List.length_cons]
        omega
      | create hp hlt =>
        simp only [List.length_cons]
        omega
    | blocked => simp only [runOp, hq]; exact h
    | error e s1 =>
      rw [hq] at hs
      simp only [runOp, hq]
      cases hs with
      | error e => exact h
  | rel c trel tsd =>
    by_cases hmem : c ∈ cfg.out
    · have hout : 1 ≤ cfg.out.length :=
        List.length_pos.mpr (List.ne_nil_of_mem hmem)
      have herase := List.length_erase_of_mem hmem
      have hs := release_shape cfg.ps c trel tsd
      obtain ⟨k, hk0, hk1, hk2, hk3⟩ := releaseScan_spec cfg.ps c trel tsd
      cases hq : release cfg.ps c trel tsd with
      | ok s1 =>
        rw [hq] at hs
        simp only [runOp, if_pos hmem, hq]
        cases hs with
        | ok hro => omega
      | error e s1 =>
        rw [hq] at hs
        simp only [runOp, if_pos hmem, hq]
        cases hs with
        | roAssert hro => exact h
        | emptyAssert hro =>
          have hok := release_ok_of_one_le_minconn cfg.ps c trel tsd hmin hro
          rw [hq] at hok
          exact absurd hok (by simp)
    · simp only [runOp, if_neg hmem]
      exact h
  | acqRo f =>
    rcases get_connection_ro_shape cfg.ps f with ⟨rc, hr, hq⟩ | ⟨hr, hf, hq⟩ |
      ⟨hr, hf, hq⟩ <;> simp only [runOp, hq] <;> exact h
  | relRo c =>
    rcases release_ro_shape cfg.ps c with hq | ⟨hr, hq⟩ <;>
      simp only [runOp, hq] <;> exact h

lemma runOps_countInv (ops : List Op) : ∀ cfg : Config,
    1 ≤ cfg.ps.minconn → countInv cfg → countInv (runOps cfg ops) := by
  induction ops with
  | nil => intro cfg hmin h; exact h
  | cons op rest ih =>
    intro cfg hmin h
    rw [runOps, List.foldl_cons, ← runOps]
    exact ih (runOp cfg op)
      (by rw [(runOp_config_fields cfg op).2]; exact hmin)
      (runOp_countInv cfg op hmin h)

/-- `_acquire` with an empty idle pool and a failing
`_create_connection` propagates the connection error and leaves the
state untouched (the `finally` only releases the lock). -/
lemma acquireBody_connect_fail (s : PoolState) (hpool : s.pool = [])
    (hcc : canCreate s = true) :
    acquireBody s true = .error .connectError s := by
  unfold acquireBody
  rw [hpool, hcc]
  simp

/-! ### The claims -/

/-- Claim C1: over every sequence of acquire/release operations on a
pool whose `_maxconn` is bounded by `m` (with the live count initially
within the bound, as it is at construction), the live read-write
connection count `_nbconn` never exceeds `m`; moreover, at any point of
the trace, an acquire that finds the idle pool empty with `_nbconn` at
the ceiling blocks on the pool condition variable, and an acquire that
changes `_nbconn` — i.e. creates a new connection — does so only when
`_nbconn` is strictly below the ceiling, incrementing it by one. -/
theorem acquire_release_respects_maxconn (cfg : Config) (m : Int)
    (ops : List Op) (hm : cfg.ps.maxconn = some m)
    (hb : cfg.ps.nbconn ≤ m) :
    (runOps cfg ops).ps.nbconn ≤ m
    ∧ (∀ f, (runOps cfg ops).ps.pool = [] → (runOps cfg ops).ps.nbconn = m →
        acquire (runOps cfg ops).ps f = .blocked)
    ∧ (∀ f c s1, acquire (runOps cfg ops).ps f = .ok c s1 →
        s1.nbconn ≠ (runOps cfg ops).ps.nbconn →
        (runOps cfg ops).ps.nbconn < m ∧
          s1.nbconn = (runOps cfg ops).ps.nbconn + 1) := by
  have hmax : (runOps cfg ops).ps.maxconn = some m := by
    rw [(runOps_config_fields ops cfg).1, hm]
  have hle := runOps_nbconn_le ops cfg m hm hb
  refine ⟨hle, ?_, ?_⟩
  · intro f hp he
    exact acquire_blocked_of _ f m hmax hle hp he
  · intro f c s1 hq hne
    have hs := acquire_shape (runOps cfg ops).ps f
    rw [hq] at hs
    cases hs with
    | pop c hnil => exact absurd rfl hne
    | create hp hlt => exact ⟨hlt m hmax, rfl⟩

/-- The starting configuration for the claim C1 witness: a freshly
constructed pool with `maxconn = 2`. -/
def c1cfg : Config :=
  ⟨{ pool := [], nbconn := 0, roconn := none, roconnRefs := 0,
     roShared := true, maxconn := some 2, minconn := 2, minkeepsecs := 5,
     nextId := 0 }, []⟩

/-- The trace for the claim C1 witness: three acquires (the third
blocks at the ceiling). -/
def c1ops : List Op := [.acq false, .acq false, .acq false]

/-- Concrete instance of claim C1 at `maxconn = 2` after a trace of
three acquires (the third blocks). -/
theorem acquire_release_respects_maxconn_witness :
    (runOps c1cfg c1ops).ps.nbconn ≤ 2
    ∧ (∀ f, (runOps c1cfg c1ops).ps.pool = [] →
        (runOps c1cfg c1ops).ps.nbconn = 2 →
        acquire (runOps c1cfg c1ops).ps f = .blocked)
    ∧ (∀ f c s1, acquire (runOps c1cfg c1ops).ps f = .ok c s1 →
        s1.nbconn ≠ (runOps c1cfg c1ops).ps.nbconn →
        (runOps c1cfg c1ops).ps.nbconn < 2 ∧
          s1.nbconn = (runOps c1cfg c1ops).ps.nbconn + 1) :=
  acquire_release_respects_maxconn c1cfg 2 c1ops rfl (by decide)

/-- Claim C2: `commit()` on a wrapper from the read-only acquisition
path — a `ConnectionWrapperRO`, or the crippled wrapper used when
sharing is disabled — always raises the read-only-violation error,
whatever the wrapper state (including right after creation and after
release: the method never consults `_conn`); `commit()` delegates to
the raw handle only on the read-write `ConnectionWrapper`. -/
theorem commit_readonly_always_fails (w : Wrapper)
    (hro : w.cap = Cap.ro ∨ w.cap = Cap.crippled) :
    w.commit = .error (.err readOnlyCommitMsg)
    ∧ ∀ (v : Wrapper) (c : Nat), v.cap = Cap.rw → v.conn = some c →
        v.commit = .ok c := by
  constructor
  · unfold Wrapper.commit
    rcases hro with h | h <;> rw [h]
  · intro v c hc hconn
    unfold Wrapper.commit
    rw [hc]
    unfold Wrapper.getconn
    rw [hconn]

/-- Concrete instance of claim C2 on a freshly created read-only
wrapper. -/
theorem commit_readonly_always_fails_witness :
    Wrapper.commit ⟨some 7, Cap.ro⟩ = .error (.err readOnlyCommitMsg)
    ∧ ∀ (v : Wrapper) (c : Nat), v.cap = Cap.rw → v.conn = some c →
        v.commit = .ok c :=
  commit_readonly_always_fails ⟨some 7, Cap.ro⟩ (Or.inl rfl)

/-- A pool state holding the shared read-only singleton (handle 5)
with one outstanding reference, used for the claim C3 statements. -/
def c3pool : PoolState :=
  { pool := [], nbconn := 0, roconn := some 5, roconnRefs := 1,
    roShared := true, maxconn := none, minconn := 5, minkeepsecs := 5,
    nextId := 6 }

/-- Claim C3 counterexample: on a read-only wrapper that has been
released, `commit()` raises the read-only-violation error, not the
use-after-release error — `ConnectionWrapperRO.commit` raises before
ever checking the connection reference, so not every post-release
operation fails with the use-after-release error. -/
theorem released_ro_commit_wrong_error :
    Wrapper.release ⟨some 5, Cap.ro⟩ c3pool 0 0 =
      .ok ⟨none, Cap.ro⟩ { c3pool with roconnRefs := 0 }
    ∧ Wrapper.commit ⟨none, Cap.ro⟩ = .error (.err readOnlyCommitMsg)
    ∧ PyError.err readOnlyCommitMsg ≠ PyError.err useAfterReleaseMsg := by
  refine ⟨by decide, rfl, by decide⟩

/-- Claim C3 (amended): on a released wrapper (its connection reference
cleared), `cursor()`, `rollback()` and a second `release()` fail with
the use-after-release error; `commit()` fails with the
use-after-release error on read-write wrappers, but on read-only and
crippled wrappers it fails with the read-only-violation error, since
their `commit` never consults the connection reference. -/
theorem released_wrapper_ops_fail (w : Wrapper) (s : PoolState)
    (trel tsd : Int) (hrel : w.conn = none) :
    w.cursor = .error (.err useAfterReleaseMsg)
    ∧ w.rollback = .error (.err useAfterReleaseMsg)
    ∧ w.release s trel tsd = .error (.err useAfterReleaseMsg) w s
    ∧ (w.cap = Cap.rw → w.commit = .error (.err useAfterReleaseMsg))
    ∧ (w.cap ≠ Cap.rw → w.commit = .error (.err readOnlyCommitMsg)) := by
  have hg : w.getconn = .error (.err useAfterReleaseMsg) := by
    unfold Wrapper.getconn
    rw [hrel]
  refine ⟨hg, hg, ?_, ?_, ?_⟩
  · unfold Wrapper.release
    rw [hg]
  · intro hc
    unfold Wrapper.commit
    rw [hc, hg]
  · intro hc
    unfold Wrapper.commit
    cases hcap : w.cap with
    | rw => exact absurd hcap hc
    | ro => rfl
    | crippled => rfl

/-- Concrete instance of the amended claim C3 on a released read-write
wrapper. -/
theorem released_wrapper_ops_fail_witness :
    Wrapper.cursor ⟨none, Cap.rw⟩ = .error (.err useAfterReleaseMsg)
    ∧ Wrapper.rollback ⟨none, Cap.rw⟩ = .error (.err useAfterReleaseMsg)
    ∧ Wrapper.release ⟨none, Cap.rw⟩ c3pool 0 0 =
        .error (.err useAfterReleaseMsg) ⟨none, Cap.rw⟩ c3pool
    ∧ ((⟨none, Cap.rw⟩ : Wrapper).cap = Cap.rw →
        Wrapper.commit ⟨none, Cap.rw⟩ = .error (.err useAfterReleaseMsg))
    ∧ ((⟨none, Cap.rw⟩ : Wrapper).cap ≠ Cap.rw →
        Wrapper.commit ⟨none, Cap.rw⟩ = .error (.err readOnlyCommitMsg)) :=
  released_wrapper_ops_fail ⟨none, Cap.rw⟩ c3pool 0 0 rfl

/-- Claim C6: when `_create_connection` fails inside `_acquire` (idle
pool empty, below the ceiling if one is set), the connection error
propagates synchronously to the caller and the resulting pool state is
exactly the input state: `_nbconn` is not incremented, the idle pool is
unchanged, and the lock has been released by the `finally`. -/
theorem failed_create_leaves_state_unchanged (s : PoolState)
    (hpool : s.pool = [])
    (hcap : s.maxconn = none ∨ ∃ m, s.maxconn = some m ∧ s.nbconn < m) :
    acquire s true = .error .connectError s := by
  have hcc : canCreate s = true := by
    unfold canCreate
    rcases hcap with h | ⟨m, hm, hlt⟩
    · rw [h]
    · rw [hm]
      exact decide_eq_true hlt
  unfold acquire
  rcases hcap with h | ⟨m, hm, hlt⟩
  · rw [h]
    exact acquireBody_connect_fail s hpool hcc
  · rw [hm]
    show (if ¬ s.nbconn ≤ m then AcquireResult.error .assertionError s
         else if s.pool = [] ∧ s.nbconn = m then .blocked
         else if ¬ (s.pool ≠ [] ∨ s.nbconn < m) then .error .assertionError s
         else acquireBody s true) = .error .connectError s
    rw [if_neg (not_not_intro (le_of_lt hlt)),
        if_neg (by intro hc; omega),
        if_neg (not_not_intro (Or.inr hlt))]
    exact acquireBody_connect_fail s hpool hcc

/-- The pool state for the claim C6 witness: empty idle pool, one live
connection, ceiling 3. -/
def c6state : PoolState :=
  { pool := [], nbconn := 1, roconn := none, roconnRefs := 0,
    roShared := true, maxconn := some 3, minconn := 5, minkeepsecs := 5,
    nextId := 1 }

/-- Concrete instance of claim C6: a failing connect below the ceiling
leaves the pool state untouched. -/
theorem failed_create_leaves_state_unchanged_witness :
    acquire c6state true = .error .connectError c6state :=
  failed_create_leaves_state_unchanged c6state rfl (Or.inr ⟨3, rfl, by decide⟩)

/-- Claim C4 (code bug): constructing a pool with read-only sharing
disabled does not succeed at all.  With `disable_ro = true`, or with
DBAPI `threadsafety < 2`, `_ro_shared` is false and line 229 of
`__init__` reads the name `disable_ro`, which is unbound there (the
option was consumed by `options.pop` inside the line-223 expression),
so the constructor raises `NameError` before `connection_ro` routing
can ever take effect; with sharing enabled the constructor succeeds.
The claim describes the clearly intended behaviour (line 227 rebinds
`connection_ro` to `_connection_ro_crippled`, and the line-230 comment
says configuring `disable_ro` should merely remove a warning), which
the code fails to implement. -/
theorem disabled_ro_construction_raises_nameerror :
    initPool 2 true 5 none 5 = .error .nameError
    ∧ initPool 1 false 5 none 5 = .error .nameError
    ∧ ∃ s, initPool 2 false 5 none 5 = .ok s := by
  exact ⟨rfl, rfl, _, rfl⟩

/-- Claim C5 (code bug): no slot is ever reserved for the read-only
singleton.  With sharing enabled and `maxconn = 3` the constructor
stores `_maxconn = 3` unchanged — the reservation branch (line 241)
tests `not self._ro_shared`, inverted with respect to its own line-240
comment "Reserve one of the available connections for the RO
connection" — and with sharing disabled, where that branch would run,
construction already failed with `NameError` at line 229. -/
theorem maxconn_reservation_inverted :
    initPool 2 false 5 (some 3) 5 =
      .ok { pool := [], nbconn := 0, roconn := none, roconnRefs := 0,
            roShared := true, maxconn := some 3, minconn := 5,
            minkeepsecs := 5, nextId := 0 }
    ∧ initPool 2 true 5 (some 3) 5 = .error .nameError := by
  exact ⟨rfl, rfl⟩

/-- The pool state for the claim C7 witness: three live connections all
checked out, `minconn = 2`. -/
def c7state : PoolState :=
  { pool := [], nbconn := 3, roconn := none, roconnRefs := 0,
    roShared := true, maxconn := none, minconn := 2, minkeepsecs := 5,
    nextId := 3 }

/-- Claim C7 (amended): after every completed `_release`, the idle pool
holds at least `min _minconn (idle count before the release + 1)`
entries — the scale-down pass never evicts below the `_minconn` floor.
The original guard "unless fewer than minIdle handles have ever been
created" is refuted by `release_floor_counterexample`: handles that
were created but are still checked out do not contribute to the idle
floor. -/
theorem release_keeps_minconn_floor (s : PoolState) (conn : Nat)
    (trel tsd : Int) (s1 : PoolState)
    (hok : release s conn trel tsd = .ok s1) :
    min s.minconn ((s.pool.length : Int) + 1) ≤ (s1.pool.length : Int) := by
  have hs := release_shape s conn trel tsd
  rw [hok] at hs
  cases hs with
  | ok hro =>
    obtain ⟨k, h0, h1, h2, h3⟩ := releaseScan_spec s conn trel tsd
    exact h3

/-- Concrete instance of the amended claim C7: a completed release onto
an empty idle pool leaves one idle entry, which meets
`min minconn (0 + 1) = 1`. -/
theorem release_keeps_minconn_floor_witness :
    min c7state.minconn ((c7state.pool.length : Int) + 1) ≤
      ((({ c7state with pool := [(0, 10)] } : PoolState)).pool.length : Int) :=
  release_keeps_minconn_floor c7state 0 10 10
    { c7state with pool := [(0, 10)] } (by decide)

/-- The pool state produced by `initPool 2 false 2 none 5`, the start
of the claim C7 counterexample trace. -/
def c7init : PoolState :=
  { pool := [], nbconn := 0, roconn := none, roconnRefs := 0,
    roShared := true, maxconn := none, minconn := 2, minkeepsecs := 5,
    nextId := 0 }

/-- Claim C7 counterexample: on a freshly constructed pool with
`minconn = 2`, after three acquires — so three handles have ever been
created, at least `minconn` — a completed `_release` of one handle
leaves only one idle entry, fewer than `minconn`: the claim's guard
"unless fewer than minIdle handles have ever been created" does not
make the floor hold, because checked-out handles count toward creation
but not toward the idle pool. -/
theorem release_floor_counterexample :
    initPool 2 false 2 none 5 = .ok c7init
    ∧ release (runOps ⟨c7init, []⟩ [.acq false, .acq false, .acq false]).ps
        0 10 10 = .ok { c7init with pool := [(0, 10)], nbconn := 3, nextId := 3 }
    ∧ c7init.minconn ≤
        (({ c7init with pool := [(0, 10)], nbconn := 3, nextId := 3 } :
          PoolState).nextId : Int)
    ∧ ¬ (c7init.minconn ≤
        ((({ c7init with pool := [(0, 10)], nbconn := 3, nextId := 3 } :
          PoolState)).pool.length : Int)) := by
  refine ⟨rfl, by decide, by decide, by decide⟩

/-- The pool state for the claim C8 witness: two idle handles matching
`_nbconn = 2`, a read-only singleton with no outstanding references. -/
def c8state : PoolState :=
  { pool := [(0, 5), (1, 6)], nbconn := 2, roconn := some 2, roconnRefs := 0,
    roShared := true, maxconn := none, minconn := 5, minkeepsecs := 5,
    nextId := 3 }

/-- Claim C8: on a pool whose handles have all been properly returned —
the idle count equals the live count and the read-only reference count
is zero, which is exactly what the `finalize` assertions check —
`finalize` succeeds, closes the read-only singleton (if present) and
every idle handle, and resets the state to empty (`_pool = []`,
`_nbconn = 0`, `_roconn = None`); calling `finalize` again on the
result is a no-op that raises no error and returns the same state. -/
theorem finalize_resets_and_is_idempotent (s : PoolState)
    (hlen : (s.pool.length : Int) = s.nbconn) (hrefs : s.roconnRefs = 0) :
    ∃ s1, finalizePool s = .ok s1 ∧ s1.pool = [] ∧ s1.nbconn = 0 ∧
      s1.roconn = none ∧ finalizePool s1 = .ok s1 := by
  by_cases h : s.pool = [] ∧ s.roconn = none
  · have hnb : s.nbconn = 0 := by
      rw [← hlen, h.1]
      simp
    refine ⟨s, ?_, h.1, hnb, h.2, ?_⟩
    · unfold finalizePool
      rw [if_pos h, if_pos hnb]
    · unfold finalizePool
      rw [if_pos h, if_pos hnb]
  · refine ⟨{ s with pool := [], roconn := none, nbconn := 0 },
      ?_, rfl, rfl, rfl, ?_⟩
    · unfold finalizePool
      rw [if_neg h, if_neg (not_not_intro hlen), if_neg (not_not_intro hrefs)]
    · unfold finalizePool
      rw [if_pos ⟨rfl, rfl⟩, if_pos rfl]

/-- Concrete instance of claim C8 on a fully returned pool with a
read-only singleton and two idle handles. -/
theorem finalize_resets_and_is_idempotent_witness :
    ∃ s1, finalizePool c8state = .ok s1 ∧ s1.pool = [] ∧ s1.nbconn = 0 ∧
      s1.roconn = none ∧ finalizePool s1 = .ok s1 :=
  finalize_resets_and_is_idempotent c8state (by decide) rfl

/-- Modelled from the spec for comparison with `_getstats`: the count
of "every handle that has been created and not yet closed — idle
handles, checked-out handles, and the read-only singleton if it
exists": the live read-write count plus one for the singleton. -/
def live_total (s : PoolState) : Int :=
  s.nbconn + (if s.roconn.isSome then 1 else 0)

/-- Claim C9 (amended): `_getstats` returns `(idleCount, total)` where
`total` counts the idle handles plus the read-only singleton only:
along any well-formed trace it falls short of the created-and-unclosed
count by exactly the number of checked-out handles.  The original
claim — that the second component counts every created-and-unclosed
handle including checked-out ones — is refuted by
`getstats_counterexample`. -/
theorem getstats_counts_idle_plus_ro (cfg : Config) (ops : List Op)
    (hmin : 1 ≤ cfg.ps.minconn) (hcnt : countInv cfg) :
    (getstats (runOps cfg ops).ps).1 = (runOps cfg ops).ps.pool.length
    ∧ ((getstats (runOps cfg ops).ps).2 : Int) +
        (runOps cfg ops).out.length = live_total (runOps cfg ops).ps := by
  have h := runOps_countInv ops cfg hmin hcnt
  unfold countInv at h
  refine ⟨rfl, ?_⟩
  unfold getstats live_total
  by_cases hro : (runOps cfg ops).ps.roconn.isSome <;>
    simp only [hro, if_pos, if_neg, Bool.not_eq_true] <;>
    push_cast <;>
    omega

/-- The starting configuration of the claim C9 witness and
counterexample traces: a freshly constructed pool with `minconn = 2`. -/
def c9init : PoolState :=
  { pool := [], nbconn := 0, roconn := none, roconnRefs := 0,
    roShared := true, maxconn := none, minconn := 2, minkeepsecs := 5,
    nextId := 0 }

/-- The claim C9 trace: two acquires, one release, one shared read-only
acquire — leaving one idle handle, one checked-out handle and the
read-only singleton. -/
def c9ops : List Op := [.acq false, .acq false, .rel 0 10 10, .acqRo false]

/-- Concrete instance of the amended claim C9 along the
`c9ops` trace. -/
theorem getstats_counts_idle_plus_ro_witness :
    (getstats (runOps ⟨c9init, []⟩ c9ops).ps).1 =
      (runOps ⟨c9init, []⟩ c9ops).ps.pool.length
    ∧ ((getstats (runOps ⟨c9init, []⟩ c9ops).ps).2 : Int) +
        (runOps ⟨c9init, []⟩ c9ops).out.length =
        live_total (runOps ⟨c9init, []⟩ c9ops).ps :=
  getstats_counts_idle_plus_ro ⟨c9init, []⟩ c9ops (by decide)
    (by unfold countInv; decide)

/-- Claim C9 counterexample: after the reachable trace `c9ops` from a
freshly constructed pool, one read-write handle is idle, one is checked
out and the read-only singleton exists; `_getstats` returns `(1, 2)` —
`total_conn` is computed from `len(self._pool)` plus the singleton —
while the created-and-unclosed count the claim asserts is 3: the
checked-out handle is not counted. -/
theorem getstats_counterexample :
    initPool 2 false 2 none 5 = .ok c9init
    ∧ getstats (runOps ⟨c9init, []⟩ c9ops).ps = (1, 2)
    ∧ live_total (runOps ⟨c9init, []⟩ c9ops).ps = 3
    ∧ ((getstats (runOps ⟨c9init, []⟩ c9ops).ps).2 : Int) ≠
        live_total (runOps ⟨c9init, []⟩ c9ops).ps := by
  refine ⟨rfl, by decide, by decide, by decide⟩

/-- Claim C10: a wrapper returns its underlying handle to the pool at
most once.  `__del__` invokes the unreleased-handle hook (when
configured) and performs the release only while the connection
reference is still set — that is, only when `release()` was never
called; a successful explicit `release()` clears the reference, after
which `__del__` invokes no hook and performs no release. -/
theorem wrapper_releases_at_most_once (w : Wrapper) (hook : Bool)
    (s : PoolState) (trel tsd : Int) :
    (w.conn = none → Wrapper.del w hook s trel tsd = (false, .ok w s))
    ∧ (∀ c, w.conn = some c →
        Wrapper.del w hook s trel tsd = (hook, w.release s trel tsd))
    ∧ (∀ w1 s1, w.release s trel tsd = .ok w1 s1 →
        w1.conn = none ∧
        ∀ (hook1 : Bool) (s2 : PoolState) (u1 u2 : Int),
          Wrapper.del w1 hook1 s2 u1 u2 = (false, .ok w1 s2)) := by
  refine ⟨?_, ?_, ?_⟩
  · intro h
    unfold Wrapper.del
    rw [h]
  · intro c h
    unfold Wrapper.del
    rw [h]
  · intro w1 s1 hok
    have hw1 : w1.conn = none := by
      unfold Wrapper.release at hok
      cases hg : w.getconn with
      | error e =>
        simp only [hg] at hok
        exact absurd hok (by simp)
      | ok c =>
        simp only [hg] at hok
        cases hr : Wrapper.release_impl w.cap s c trel tsd with
        | error e s2 =>
          simp only [hr] at hok
          exact absurd hok (by simp)
        | ok s2 =>
          simp only [hr, WRelResult.ok.injEq] at hok
          rw [← hok.1]
    refine ⟨hw1, ?_⟩
    intro hook1 s2 u1 u2
    unfold Wrapper.del
    rw [hw1]

/-- The pool state for the claim C10 witness. -/
def c10state : PoolState :=
  { pool := [], nbconn := 1, roconn := none, roconnRefs := 0,
    roShared := true, maxconn := none, minconn := 5, minkeepsecs := 5,
    nextId := 1 }

/-- Concrete instance of claim C10: the finalizer of an explicitly
released wrapper invokes no hook and performs no release. -/
theorem wrapper_releases_at_most_once_witness :
    Wrapper.del ⟨none, Cap.rw⟩ true c10state 0 0 =
      (false, .ok ⟨none, Cap.rw⟩ c10state) :=
  (wrapper_releases_at_most_once ⟨none, Cap.rw⟩ true c10state 0 0).1 rfl

end Antipool
